import Mathlib

/-!
Shallow embedding of the `xert-poller` repository's core
(`src/xert_poller/poller.py`, `auth.py`, `webhook.py`) and proofs of the
specification claims about it.

Structured payloads (Python dicts / lists / JSON bodies) are modelled by
the `JValue` inductive; Python dicts are ordered association lists.
Model caveats, stated once here: date values, path values and tokens are
modelled as strings (the code only ever handles those shapes), and machine
floats in `time.time()` / `access_expiry` are modelled as integers (the
claims only exercise integer-valued instants).
-/

/-- JSON-like payload values.  Python dicts are ordered association lists
(`jobj`), preserving insertion order, as CPython does. -/
inductive JValue where
  | jnull
  | jbool (b : Bool)
  | jnum (n : Int)
  | jstr (s : String)
  | jarr (xs : List JValue)
  | jobj (xs : List (String × JValue))

/-- A Python dict with string keys: an insertion-ordered association list. -/
abbrev JObj := List (String × JValue)

/-- `d.get(k)`: first binding of `k` in the dict (Python dicts have unique
keys, so first = only). -/
def dGet : JObj → String → Option JValue
  | [], _ => none
  | p :: ps, k => if p.1 = k then some p.2 else dGet ps k

/-- `d.get(k, default)`. -/
def dGetD (d : JObj) (k : String) (v : JValue) : JValue :=
  (dGet d k).getD v

/-- Python truthiness (`bool(x)`) of a JSON value. -/
def truthy : JValue → Bool
  | .jnull => false
  | .jbool b => b
  | .jnum n => n != 0
  | .jstr s => s != ""
  | .jarr xs => !xs.isEmpty
  | .jobj xs => !xs.isEmpty

/-- Python truthiness of a `d.get(k)` result (`None` is falsy). -/
def truthyO : Option JValue → Bool
  | none => false
  | some v => truthy v

/-- `dict.__setitem__`: replace in place if the key exists, else append. -/
def dictInsert (d : JObj) (k : String) (v : JValue) : JObj :=
  if d.any (fun p => p.1 = k) then
    d.map (fun p => if p.1 = k then (k, v) else p)
  else
    d ++ [(k, v)]

/-- Python `{**a, **b}`: start from `a`, then set each binding of `b` in
order; `b` (the detail dict) wins on key collision. -/
def dictMerge (a b : JObj) : JObj :=
  b.foldl (fun acc p => dictInsert acc p.1 p.2) a

/-! ## `json.dumps(data, sort_keys=True, default=str)`

CPython's encoder with `ensure_ascii=True` (the default) emits only the
ASCII range 0x20–0x7E, escaping everything else; item separator `", "`,
key separator `": "`; object items are sorted (by key, since keys are
unique strings).  We render each value, collect `(key, rendered)` pairs,
sort them by key, and join — extensionally identical to sorting the items
first, since rendering a value does not depend on its position. -/

/-- Lowercase hex digit. -/
def hexDigit (n : Nat) : Char :=
  if n < 10 then Char.ofNat (48 + n) else Char.ofNat (87 + n)

/-- `\uXXXX` escape (4 lowercase hex digits). -/
def uEscape (n : Nat) : List Char :=
  ['\\', 'u', hexDigit (n / 4096 % 16), hexDigit (n / 256 % 16),
   hexDigit (n / 16 % 16), hexDigit (n % 16)]

/-- CPython `json` escaping of a single character (`ensure_ascii=True`):
everything outside 0x20–0x7E is escaped, astral characters as surrogate
pairs. -/
def escapeChar (c : Char) : List Char :=
  if c = '"' then ['\\', '"']
  else if c = '\\' then ['\\', '\\']
  else if c = '\n' then ['\\', 'n']
  else if c = '\r' then ['\\', 'r']
  else if c = '\t' then ['\\', 't']
  else if c.toNat = 8 then ['\\', 'b']
  else if c.toNat = 12 then ['\\', 'f']
  else if c.toNat < 32 || c.toNat > 126 then
    if c.toNat < 65536 then uEscape c.toNat
    else uEscape (55296 + (c.toNat - 65536) / 1024) ++
         uEscape (56320 + (c.toNat - 65536) % 1024)
  else [c]

/-- JSON string literal rendering. -/
def dumpStr (s : String) : String :=
  "\"" ++ String.mk (s.data.map escapeChar).flatten ++ "\""

/-- Sort rendered object entries by key (Python `sorted(dct.items())`;
keys are unique, so comparison never reaches the values). -/
def sortPairs (l : List (String × String)) : List (String × String) :=
  l.mergeSort (fun p q => decide (p.1 ≤ q.1))

/-- Join rendered object entries with the default separators. -/
def joinPairs : List (String × String) → String
  | [] => ""
  | [p] => dumpStr p.1 ++ ": " ++ p.2
  | p :: q :: ps => dumpStr p.1 ++ ": " ++ p.2 ++ ", " ++ joinPairs (q :: ps)

mutual

/-- `json.dumps(v, sort_keys=True)` (separators `", "` / `": "`,
`ensure_ascii=True`). -/
def dumps : JValue → String
  | .jnull => "null"
  | .jbool true => "true"
  | .jbool false => "false"
  | .jnum n => toString n
  | .jstr s => dumpStr s
  | .jarr xs => "[" ++ dumpsList xs ++ "]"
  | .jobj xs => "\x7b" ++ joinPairs (sortPairs (dumpsEntries xs)) ++ "\x7d"

/-- Array elements joined with `", "`. -/
def dumpsList : List JValue → String
  | [] => ""
  | [x] => dumps x
  | x :: y :: xs => dumps x ++ ", " ++ dumpsList (y :: xs)

/-- Render each dict entry's value, keeping insertion order and keys. -/
def dumpsEntries : JObj → List (String × String)
  | [] => []
  | (k, v) :: xs => (k, dumps v) :: dumpsEntries xs

end

/-! ## SHA-256 (`hashlib.sha256`)

A direct executable implementation over byte lists; 32-bit words are `Nat`
reduced with explicit `% 2^32`. -/

/-- 2^32. -/
def M32 : Nat := 4294967296

/-- Right-rotate a 32-bit word by `n`. -/
def rotr (n w : Nat) : Nat := ((w >>> n) ||| (w <<< (32 - n))) % M32

/-- The eight working variables of the compression function. -/
structure Hash8 where
  a : Nat
  b : Nat
  c : Nat
  d : Nat
  e : Nat
  f : Nat
  g : Nat
  h : Nat

/-- SHA-256 initial hash value. -/
def sha256init : Hash8 :=
  ⟨1779033703, 3144134277, 1013904242, 2773480762,
   1359893119, 2600822924, 528734635, 1541459225⟩

/-- SHA-256 round constants. -/
def sha256K : List Nat :=
  [1116352408, 1899447441, 3049323471, 3921009573, 961987163, 1508970993,
   2453635748, 2870763221, 3624381080, 310598401, 607225278, 1426881987,
   1925078388, 2162078206, 2614888103, 3248222580, 3835390401, 4022224774,
   264347078, 604807628, 770255983, 1249150122, 1555081692, 1996064986,
   2554220882, 2821834349, 2952996808, 3210313671, 3336571891, 3584528711,
   113926993, 338241895, 666307205, 773529912, 1294757372, 1396182291,
   1695183700, 1986661051, 2177026350, 2456956037, 2730485921, 2820302411,
   3259730800, 3345764771, 3516065817, 3600352804, 4094571909, 275423344,
   430227734, 506948616, 659060556, 883997877, 958139571, 1322822218,
   1537002063, 1747873779, 1955562222, 2024104815, 2227730452, 2361852424,
   2428436474, 2756734187, 3204031479, 3329325298]

/-- Message-schedule extension step values σ0, σ1. -/
def smallS0 (w : Nat) : Nat := (rotr 7 w ^^^ rotr 18 w) ^^^ (w >>> 3)

def smallS1 (w : Nat) : Nat := (rotr 17 w ^^^ rotr 19 w) ^^^ (w >>> 10)

def bigS0 (w : Nat) : Nat := (rotr 2 w ^^^ rotr 13 w) ^^^ rotr 22 w

def bigS1 (w : Nat) : Nat := (rotr 6 w ^^^ rotr 11 w) ^^^ rotr 25 w

def chFn (e f g : Nat) : Nat := (e &&& f) ^^^ ((e ^^^ 4294967295) &&& g)

def majFn (a b c : Nat) : Nat := ((a &&& b) ^^^ (a &&& c)) ^^^ (b &&& c)

/-- Big-endian 32-bit word from four bytes. -/
def word4 (b0 b1 b2 b3 : Nat) : Nat := ((b0 * 256 + b1) * 256 + b2) * 256 + b3

/-- The 16 big-endian words of one 64-byte block. -/
def blockWords (blk : List Nat) : List Nat :=
  (List.range 16).map fun i =>
    word4 (blk.getD (4 * i) 0) (blk.getD (4 * i + 1) 0)
          (blk.getD (4 * i + 2) 0) (blk.getD (4 * i + 3) 0)

/-- Extend 16 words to the 64-word message schedule. -/
def schedule (ws : List Nat) : List Nat :=
  (List.range 48).foldl
    (fun ws _ =>
      let n := ws.length
      ws ++ [(ws.getD (n - 16) 0 + smallS0 (ws.getD (n - 15) 0) +
              ws.getD (n - 7) 0 + smallS1 (ws.getD (n - 2) 0)) % M32])
    ws

/-- One compression round. -/
def sha256round (s : Hash8) (k w : Nat) : Hash8 :=
  let t1 := (s.h + bigS1 s.e + chFn s.e s.f s.g + k + w) % M32
  let t2 := (bigS0 s.a + majFn s.a s.b s.c) % M32
  ⟨(t1 + t2) % M32, s.a, s.b, s.c, (s.d + t1) % M32, s.e, s.f, s.g⟩

/-- Compress one 64-byte block into the running hash. -/
def sha256compress (s : Hash8) (blk : List Nat) : Hash8 :=
  let ws := schedule (blockWords blk)
  let t := (List.range 64).foldl
    (fun st i => sha256round st (sha256K.getD i 0) (ws.getD i 0)) s
  ⟨(s.a + t.a) % M32, (s.b + t.b) % M32, (s.c + t.c) % M32, (s.d + t.d) % M32,
   (s.e + t.e) % M32, (s.f + t.f) % M32, (s.g + t.g) % M32, (s.h + t.h) % M32⟩

/-- SHA-256 padding: `0x80`, zeros to 56 mod 64, 8-byte big-endian bit
length. -/
def sha256pad (msg : List Nat) : List Nat :=
  let bitLen := msg.length * 8
  msg ++ [128] ++ List.replicate ((119 - msg.length % 64) % 64) 0 ++
    (List.range 8).map (fun i => (bitLen >>> (8 * (7 - i))) % 256)

/-- Split a padded message into 64-byte blocks (fuel = length, so the
recursion is structural). -/
def toBlocksAux : Nat → List Nat → List (List Nat)
  | 0, _ => []
  | _, [] => []
  | fuel + 1, l => l.take 64 :: toBlocksAux fuel (l.drop 64)

def toBlocks (l : List Nat) : List (List Nat) := toBlocksAux l.length l

/-- The SHA-256 digest (eight 32-bit words) of a byte string. -/
def sha256digest (msg : List Nat) : Hash8 :=
  (toBlocks (sha256pad msg)).foldl sha256compress sha256init

/-- Eight lowercase hex characters of one 32-bit word. -/
def word8hex (w : Nat) : List Char :=
  [hexDigit (w / 268435456 % 16), hexDigit (w / 16777216 % 16),
   hexDigit (w / 1048576 % 16), hexDigit (w / 65536 % 16),
   hexDigit (w / 4096 % 16), hexDigit (w / 256 % 16),
   hexDigit (w / 16 % 16), hexDigit (w % 16)]

/-- `hashlib.sha256(bytes).hexdigest()` as a character list (64 lowercase
hex characters). -/
def sha256hexChars (msg : List Nat) : List Char :=
  let d := sha256digest msg
  word8hex d.a ++ word8hex d.b ++ word8hex d.c ++ word8hex d.d ++
  word8hex d.e ++ word8hex d.f ++ word8hex d.g ++ word8hex d.h

/-- `str.encode()`: UTF-8 bytes.  `dumps` output is pure ASCII
(`ensure_ascii=True`), where UTF-8 is the identity on code points. -/
def strBytes (s : String) : List Nat := s.data.map Char.toNat

/-- `poller._compute_hash`:
`hashlib.sha256(json.dumps(data, sort_keys=True, default=str).encode()).hexdigest()[:16]`. -/
def _compute_hash (data : JValue) : String :=
  String.mk ((sha256hexChars (strBytes (dumps data))).take 16)

/-! ## `auth.py`: token data and `ensure_valid_token`

The two grant HTTP exchanges are external collaborators; their outcomes are
oracle parameters (`none` = grant failed, `some t` = grant succeeded and
replaced the token state with `t`, as `_parse_token_response` does). -/

/-- `TokenData` (`auth.py`). -/
structure TokenData where
  access_token : String := ""
  refresh_token : String := ""
  access_expiry : Int := 0

/-- `TokenData.is_access_valid`:
`self.access_token and time.time() < (self.access_expiry - margin)`. -/
def TokenData.is_access_valid (t : TokenData) (now : Int) (margin : Int) : Bool :=
  t.access_token != "" && decide (now < t.access_expiry - margin)

/-- Which OAuth2 grants a call attempted, in order. -/
inductive Grant where
  | refresh
  | password
deriving DecidableEq, Repr

/-- `AuthManager.ensure_valid_token`, with the outcome of each grant
supplied as an oracle.  Returns the token result and the list of grants
attempted, in order. -/
def ensure_valid_token (tokens : TokenData) (now margin : Int)
    (refresh_result password_result : Option TokenData) :
    Option String × List Grant :=
  if tokens.is_access_valid now margin then
    (some tokens.access_token, [])
  else if tokens.refresh_token != "" then
    match refresh_result with
    | some t => (some t.access_token, [Grant.refresh])
    | none =>
      match password_result with
      | some t => (some t.access_token, [Grant.refresh, Grant.password])
      | none => (none, [Grant.refresh, Grant.password])
  else
    match password_result with
    | some t => (some t.access_token, [Grant.password])
    | none => (none, [Grant.password])

/-! ## `webhook.py`: the JSON bodies posted to Home Assistant -/

namespace WebhookClient

/-- The JSON body `WebhookClient.send` posts. -/
def send (event_type : String) (data : JObj) : JObj :=
  [("event_type", .jstr event_type), ("data", .jobj data)]

/-- `WebhookClient.send_training_info`. -/
def send_training_info (data : JObj) : JObj :=
  send "xert_training_info_update"
    [("available", dGetD data "success" (.jbool false)), ("parsed", .jobj data)]

/-- `WebhookClient.send_activities`. -/
def send_activities (data : JObj) : JObj :=
  send "xert_activity_list_update"
    [("available", dGetD data "success" (.jbool false)), ("parsed", .jobj data)]

end WebhookClient

/-! ## `poller.py`: state and the two poll cycles

Each cycle's external effects are oracle parameters: the token
acquisition result, the fetch result (`none` = fetch failed), the detail
fetches (a function from activity path to result), and the webhook
delivery outcome (`webhook.send`'s boolean, which the poller receives and
discards).  A cycle returns the new `PollerState` and `some body` when the
Notifier was invoked with JSON body `body` (`none` = no notification). -/

/-- `PollerState` (`poller.py`), with its dataclass defaults. -/
structure PollerState where
  training_info_hash : String := ""
  activities_hash : String := ""
  last_training_info : JObj := []
  last_activities : JObj := []

namespace Poller

/-- `Poller._poll_training_info`. -/
def pollTrainingInfo (st : PollerState) (force_send : Bool)
    (token : Option String) (fetch : Option JObj) (delivered : Bool) :
    PollerState × Option JObj :=
  match token with
  | none => (st, none)
  | some _ =>
    match fetch with
    | none => (st, none)
    | some data =>
      let data_hash := _compute_hash (.jobj data)
      if force_send || data_hash != st.training_info_hash then
        ({ st with training_info_hash := data_hash, last_training_info := data },
         some (WebhookClient.send_training_info data))
      else
        (st, none)

/-- `data.get("activities", [])`, read as a list (the code iterates it; a
non-list here would crash the source, so the model only gives list
payloads meaning). -/
def getActivities (d : JObj) : List JValue :=
  match dGetD d "activities" (.jarr []) with
  | .jarr xs => xs
  | _ => []

/-- `a.get("start_date", {}).get("date")`. -/
def sortDateVal (a : JValue) : Option JValue :=
  match a with
  | .jobj ao =>
    match (dGet ao "start_date").getD (.jobj []) with
    | .jobj so => dGet so "date"
    | _ => none
  | _ => none

/-- The filter `if a.get("start_date", {}).get("date")` (truthiness). -/
def hasSortDate (a : JValue) : Bool := truthyO (sortDateVal a)

/-- The sort key `x.get("start_date", {}).get("date", "")` (dates are
strings in the upstream payload). -/
def sortDate (a : JValue) : String :=
  match sortDateVal a with
  | some (.jstr s) => s
  | _ => ""

/-- `sorted([a for a in activities if a.get("start_date", {}).get("date")],
key=..., reverse=True)[:50]` — the enrichment candidate list. -/
def sortedActivities (activities : List JValue) : List JValue :=
  ((activities.filter hasSortDate).mergeSort
    (fun x y => decide (sortDate y ≤ sortDate x))).take 50

/-- `activity.get("path")` followed by the `if path:` truthiness test
(paths are strings in the upstream payload). -/
def pathOf (a : JValue) : Option String :=
  match a with
  | .jobj ao =>
    match dGet ao "path" with
    | some (.jstr s) => if s = "" then none else some s
    | _ => none
  | _ => none

/-- The enrichment of one candidate: fetch the detail by path; merge only
when the detail is truthy (a non-empty dict) and its `success` field is
truthy; otherwise keep the entry unmerged. -/
def enrichOne (details : String → Option JObj) (a : JValue) : JValue :=
  match a with
  | .jobj ao =>
    match pathOf a with
    | some p =>
      match details p with
      | some detail =>
        if truthy (.jobj detail) && truthyO (dGet detail "success") then
          .jobj (dictMerge ao detail)
        else a
      | none => a
    | none => a
  | _ => a

/-- The working payload after the enrichment block of
`Poller._poll_activities`: unchanged when the fetched activities list is
falsy, else replaced by
`{"success": data.get("success", True), "activities": enriched}`. -/
def activitiesPayload (details : String → Option JObj) (data0 : JObj) : JObj :=
  let activities := getActivities data0
  if activities.isEmpty then data0
  else
    [("success", dGetD data0 "success" (.jbool true)),
     ("activities", .jarr ((sortedActivities activities).map (enrichOne details)))]

/-- `Poller._poll_activities`. -/
def pollActivities (st : PollerState) (force_send : Bool)
    (token : Option String) (fetch : Option JObj)
    (details : String → Option JObj) (delivered : Bool) :
    PollerState × Option JObj :=
  match token with
  | none => (st, none)
  | some _ =>
    match fetch with
    | none => (st, none)
    | some data0 =>
      let data := activitiesPayload details data0
      let data_hash := _compute_hash (.jobj data)
      if force_send || data_hash != st.activities_hash then
        ({ st with activities_hash := data_hash, last_activities := data },
         some (WebhookClient.send_activities data))
      else
        (st, none)

/-- `Poller.start` up to the launch of the timed loops: one forced cycle
per resource type (the source re-acquires the token inside each cycle;
the same oracle value models it). -/
def start (st : PollerState) (token : Option String)
    (fetchT fetchA : Option JObj) (details : String → Option JObj)
    (delivT delivA : Bool) : PollerState × Option JObj × Option JObj :=
  match token with
  | none => (st, none, none)
  | some tok =>
    let r1 := pollTrainingInfo st true (some tok) fetchT delivT
    let r2 := pollActivities r1.1 true (some tok) fetchA details delivA
    (r2.1, r1.2, r2.2)

end Poller

/-! ## Helper lemmas -/

/-- Each 32-bit word renders as exactly 8 hex characters. -/
theorem word8hex_length (w : Nat) : (word8hex w).length = 8 := rfl

/-- A SHA-256 hex digest has 64 characters. -/
theorem sha256hexChars_length (msg : List Nat) :
    (sha256hexChars msg).length = 64 := by
  simp [sha256hexChars, word8hex]

/-- `_compute_hash` always returns a 16-character string. -/
theorem compute_hash_length (v : JValue) : (_compute_hash v).length = 16 := by
  simp [_compute_hash, String.length, sha256hexChars_length]

/-- A fingerprint is never the empty string (the `PollerState` default). -/
theorem compute_hash_ne_empty (v : JValue) : _compute_hash v ≠ "" := by
  intro h
  have hl := compute_hash_length v
  rw [h] at hl
  simp [String.length] at hl

/-! ## Claim C4 — token validity boundary -/

/-- C4 counterexample: the claim asserts validity at time `T - M - 1` is
false; with `access_expiry = 1000`, `margin = 300` the check at
`now = 699 = T - M - 1` returns `true` (`699 < 700`), refuting that
conjunct at a concrete input. -/
theorem c4_counterexample :
    TokenData.is_access_valid ⟨"t", "", 1000⟩ 699 300 = true := by decide

/-- C4 (amended): for a non-empty access token the validity check returns
`true` exactly when `now < access_expiry - margin`; in particular it is
valid at `T - M - 1` (true, not false as the claim stated) and at
`T - M - 10`, and invalid at exactly `T - M`. -/
theorem c4_amended (tok rt : String) (T M now : Int) (h : tok ≠ "") :
    (TokenData.is_access_valid ⟨tok, rt, T⟩ now M = true ↔ now < T - M) ∧
    TokenData.is_access_valid ⟨tok, rt, T⟩ (T - M - 1) M = true ∧
    TokenData.is_access_valid ⟨tok, rt, T⟩ (T - M - 10) M = true ∧
    TokenData.is_access_valid ⟨tok, rt, T⟩ (T - M) M = false := by
  refine ⟨?_, ?_, ?_, ?_⟩ <;> simp [TokenData.is_access_valid, h] <;> omega

/-- Witness for C4 (amended) at `tok = "t"`, `T = 1000`, `M = 300`. -/
theorem c4_amended_witness :
    ("t" : String) ≠ "" ∧
    TokenData.is_access_valid ⟨"t", "", 1000⟩ 690 300 = true :=
  ⟨by decide, (c4_amended "t" "" 1000 300 690 (by decide)).2.2.1⟩

/-! ## Claim C3 — `ensure_valid_token` grant fallback -/

/-- C3: a valid token is returned with no grant attempted; with a refresh
token present and a successful refresh, the password grant is never
attempted and the refreshed access token is returned; on refresh failure
or refresh-token absence the password grant is attempted; the call
returns `none` exactly when no grant that ran succeeded — i.e. both fail
(where "refresh fails" covers the no-refresh-token case in which it is
not even attempted). -/
theorem c3_ok (tokens : TokenData) (now margin : Int)
    (rr pr : Option TokenData) :
    (tokens.is_access_valid now margin = true →
      ensure_valid_token tokens now margin rr pr = (some tokens.access_token, [])) ∧
    (tokens.is_access_valid now margin = false → tokens.refresh_token ≠ "" →
      ∀ t, rr = some t →
        ensure_valid_token tokens now margin rr pr
          = (some t.access_token, [Grant.refresh])) ∧
    (tokens.is_access_valid now margin = false →
      (tokens.refresh_token = "" ∨ rr = none) →
      Grant.password ∈ (ensure_valid_token tokens now margin rr pr).2) ∧
    ((ensure_valid_token tokens now margin rr pr).1 = none ↔
      tokens.is_access_valid now margin = false ∧ pr = none ∧
        (tokens.refresh_token ≠ "" → rr = none)) := by
  by_cases hv : tokens.is_access_valid now margin = true
  · refine ⟨fun _ => by simp [ensure_valid_token, hv], ?_, ?_, ?_⟩ <;>
      simp [ensure_valid_token, hv]
  · have hv' : tokens.is_access_valid now margin = false := by
      cases h : tokens.is_access_valid now margin
      · rfl
      · exact absurd h hv
    by_cases hr : tokens.refresh_token = ""
    · cases rr <;> cases pr <;>
        simp [ensure_valid_token, hv', hr]
    · cases rr <;> cases pr <;>
        simp [ensure_valid_token, hv', hr]

/-- Witness for C3: an expired token with a refresh token present and a
successful refresh grant returns the refreshed access token having
attempted only the refresh grant. -/
theorem c3_ok_witness :
    TokenData.is_access_valid ⟨"", "r", 0⟩ 0 0 = false ∧
    ("r" : String) ≠ "" ∧
    ensure_valid_token ⟨"", "r", 0⟩ 0 0 (some ⟨"n", "r2", 100⟩) none
      = (some "n", [Grant.refresh]) :=
  ⟨by decide, by decide,
    (c3_ok ⟨"", "r", 0⟩ 0 0 (some ⟨"n", "r2", 100⟩) none).2.1
      (by decide) (by decide) ⟨"n", "r2", 100⟩ rfl⟩

/-! ## Claim C9 — webhook body shape -/

/-- C9 counterexample: the event types actually posted are
`"xert_training_info_update"` and `"xert_activity_list_update"`, neither
of which is one of the claim's exact strings `"training_info_update"` /
`"activity_list_update"`. -/
theorem c9_counterexample :
    dGet (WebhookClient.send_training_info [("success", .jbool true)]) "event_type"
      = some (.jstr "xert_training_info_update") ∧
    dGet (WebhookClient.send_activities [("success", .jbool true)]) "event_type"
      = some (.jstr "xert_activity_list_update") ∧
    ("xert_training_info_update" : String) ≠ "training_info_update" ∧
    ("xert_training_info_update" : String) ≠ "activity_list_update" ∧
    ("xert_activity_list_update" : String) ≠ "training_info_update" ∧
    ("xert_activity_list_update" : String) ≠ "activity_list_update" :=
  ⟨rfl, rfl, by decide, by decide, by decide, by decide⟩

/-- C9 (amended): every body a poll cycle delivers to the webhook is
`{event_type, data}` with `event_type` exactly
`"xert_training_info_update"` (training/status resource) or
`"xert_activity_list_update"` (activities resource), and `data` is
`{available: the payload's success flag (default `false` when absent, not
coerced), parsed: the full payload}`. -/
theorem c9_amended (st : PollerState) (force : Bool) (tok : String)
    (dataT dataA : JObj) (details : String → Option JObj) (dOk : Bool)
    (body : JObj) :
    ((Poller.pollTrainingInfo st force (some tok) (some dataT) dOk).2 = some body →
      body.map Prod.fst = ["event_type", "data"] ∧
      dGet body "event_type" = some (.jstr "xert_training_info_update") ∧
      dGet body "data"
        = some (.jobj [("available", dGetD dataT "success" (.jbool false)),
                       ("parsed", .jobj dataT)])) ∧
    ((Poller.pollActivities st force (some tok) (some dataA) details dOk).2 = some body →
      body.map Prod.fst = ["event_type", "data"] ∧
      dGet body "event_type" = some (.jstr "xert_activity_list_update") ∧
      dGet body "data"
        = some (.jobj [("available",
                        dGetD (Poller.activitiesPayload details dataA) "success" (.jbool false)),
                       ("parsed", .jobj (Poller.activitiesPayload details dataA))])) := by
  constructor
  · intro h
    simp only [Poller.pollTrainingInfo] at h
    split at h
    · cases h
      refine ⟨rfl, rfl, rfl⟩
    · cases h
  · intro h
    simp only [Poller.pollActivities] at h
    split at h
    · cases h
      refine ⟨rfl, rfl, rfl⟩
    · cases h

/-- Witness for C9 (amended): a forced training-info cycle delivers a body
whose event type is `"xert_training_info_update"`. -/
theorem c9_amended_witness :
    ((Poller.pollTrainingInfo {} true (some "t") (some [("success", .jbool true)]) true).2
      = some (WebhookClient.send_training_info [("success", .jbool true)])) ∧
    dGet (WebhookClient.send_training_info [("success", .jbool true)]) "event_type"
      = some (.jstr "xert_training_info_update") :=
  ⟨rfl,
    ((c9_amended {} true "t" [("success", .jbool true)] [] (fun _ => none) true
      (WebhookClient.send_training_info [("success", .jbool true)])).1 rfl).2.1⟩

/-! ## Claim C1 — state update vs. delivery outcome -/

/-- C1 counterexample: a training-info cycle whose webhook delivery fails
(`delivered = false`) nevertheless replaces the stored fingerprint: from
the default `""` it becomes the (16-character, hence non-empty)
fingerprint of the fetched payload, contradicting "when delivery fails,
the stored fingerprint and last payload remain unchanged". -/
theorem c1_counterexample :
    (Poller.pollTrainingInfo {} true (some "t")
        (some [("success", .jbool true)]) false).2.isSome = true ∧
    (Poller.pollTrainingInfo {} true (some "t")
        (some [("success", .jbool true)]) false).1.training_info_hash ≠ "" := by
  refine ⟨rfl, ?_⟩
  have he : (Poller.pollTrainingInfo {} true (some "t")
      (some [("success", .jbool true)]) false).1.training_info_hash
      = _compute_hash (.jobj [("success", .jbool true)]) := rfl
  rw [he]
  exact compute_hash_ne_empty _

/-- C1 (amended): the stored fingerprint and last payload are updated
exactly when the notify step is reached (forced or changed fingerprint),
set to the delivered payload's fingerprint and the payload itself, and
the update is identical whether delivery succeeds or fails — the webhook
result is discarded.  So the stored fingerprint reflects the payload last
*passed to* the Notifier, not the payload last *successfully delivered*. -/
theorem c1_amended (st : PollerState) (force : Bool) (tok : String)
    (dataT dataA : JObj) (details : String → Option JObj) (d1 d2 : Bool) :
    (Poller.pollTrainingInfo st force (some tok) (some dataT) d1
      = Poller.pollTrainingInfo st force (some tok) (some dataT) d2) ∧
    (Poller.pollActivities st force (some tok) (some dataA) details d1
      = Poller.pollActivities st force (some tok) (some dataA) details d2) ∧
    ((Poller.pollTrainingInfo st force (some tok) (some dataT) d1).2.isSome = true →
      (Poller.pollTrainingInfo st force (some tok) (some dataT) d1).1.training_info_hash
          = _compute_hash (.jobj dataT) ∧
      (Poller.pollTrainingInfo st force (some tok) (some dataT) d1).1.last_training_info
          = dataT) ∧
    ((Poller.pollTrainingInfo st force (some tok) (some dataT) d1).2 = none →
      (Poller.pollTrainingInfo st force (some tok) (some dataT) d1).1 = st) ∧
    ((Poller.pollActivities st force (some tok) (some dataA) details d1).2.isSome = true →
      (Poller.pollActivities st force (some tok) (some dataA) details d1).1.activities_hash
          = _compute_hash (.jobj (Poller.activitiesPayload details dataA)) ∧
      (Poller.pollActivities st force (some tok) (some dataA) details d1).1.last_activities
          = Poller.activitiesPayload details dataA) ∧
    ((Poller.pollActivities st force (some tok) (some dataA) details d1).2 = none →
      (Poller.pollActivities st force (some tok) (some dataA) details d1).1 = st) := by
  refine ⟨rfl, rfl, ?_, ?_, ?_, ?_⟩ <;>
    (simp only [Poller.pollTrainingInfo, Poller.pollActivities]; split) <;> simp_all

/-- Witness for C1 (amended): a forced cycle with failed delivery
(`delivered = false`) notifies and stores the fetched payload. -/
theorem c1_amended_witness :
    ((Poller.pollTrainingInfo {} true (some "t")
        (some [("success", .jbool true)]) false).2.isSome = true) ∧
    (Poller.pollTrainingInfo {} true (some "t")
        (some [("success", .jbool true)]) false).1.last_training_info
      = [("success", .jbool true)] :=
  ⟨rfl,
    ((c1_amended {} true "t" [("success", .jbool true)] [] (fun _ => none)
        false false).2.2.1 rfl).2⟩

/-! ## Claim C2 — notify iff forced or fingerprint changed -/

/-- C2: for a cycle whose token acquisition and fetch succeed, the
Notifier is invoked iff the cycle is forced or the fingerprint of the
(possibly enriched) payload differs from the stored one; a non-forced
cycle with a matching fingerprint delivers nothing and leaves the state
untouched; and the startup run forces one notification per resource
type. -/
theorem c2_ok (st : PollerState) (force dOk : Bool) (tok : String)
    (dataT dataA : JObj) (details : String → Option JObj) :
    ((Poller.pollTrainingInfo st force (some tok) (some dataT) dOk).2.isSome
      = (force || _compute_hash (.jobj dataT) != st.training_info_hash)) ∧
    ((Poller.pollActivities st force (some tok) (some dataA) details dOk).2.isSome
      = (force ||
          _compute_hash (.jobj (Poller.activitiesPayload details dataA))
            != st.activities_hash)) ∧
    (_compute_hash (.jobj dataT) = st.training_info_hash →
      Poller.pollTrainingInfo st false (some tok) (some dataT) dOk = (st, none)) ∧
    (_compute_hash (.jobj (Poller.activitiesPayload details dataA))
        = st.activities_hash →
      Poller.pollActivities st false (some tok) (some dataA) details dOk
        = (st, none)) ∧
    ((Poller.start st (some tok) (some dataT) (some dataA) details dOk dOk).2.1.isSome
        = true ∧
     (Poller.start st (some tok) (some dataT) (some dataA) details dOk dOk).2.2.isSome
        = true) := by
  refine ⟨?_, ?_, ?_, ?_, ?_, ?_⟩
  · simp only [Poller.pollTrainingInfo]
    split <;> simp_all
  · simp only [Poller.pollActivities]
    split <;> simp_all
  · intro h
    simp [Poller.pollTrainingInfo, h]
  · intro h
    simp [Poller.pollActivities, h]
  · simp [Poller.start, Poller.pollTrainingInfo]
  · simp [Poller.start, Poller.pollTrainingInfo, Poller.pollActivities]

/-- Witness for C2: a non-forced training-info cycle whose payload
fingerprint equals the stored one changes nothing and sends nothing. -/
theorem c2_ok_witness :
    Poller.pollTrainingInfo
        ⟨_compute_hash (.jobj [("x", .jnum 1)]), "", [], []⟩
        false (some "t") (some [("x", .jnum 1)]) true
      = (⟨_compute_hash (.jobj [("x", .jnum 1)]), "", [], []⟩, none) :=
  (c2_ok ⟨_compute_hash (.jobj [("x", .jnum 1)]), "", [], []⟩
    false true "t" [("x", .jnum 1)] [] (fun _ => none)).2.2.1 rfl

/-! ## Claim C10 — fingerprint/payload consistency invariant -/

/-- For each resource type, either the stored fingerprint and payload are
still the dataclass defaults, or the fingerprint is `_compute_hash` of
the stored payload. -/
def PollerState.Inv (st : PollerState) : Prop :=
  ((st.training_info_hash = "" ∧ st.last_training_info = []) ∨
    st.training_info_hash = _compute_hash (.jobj st.last_training_info)) ∧
  ((st.activities_hash = "" ∧ st.last_activities = []) ∨
    st.activities_hash = _compute_hash (.jobj st.last_activities))

/-- The training-info cycle preserves the consistency invariant. -/
theorem inv_pollTrainingInfo (st : PollerState) (hInv : st.Inv) (force : Bool)
    (token : Option String) (fetch : Option JObj) (dOk : Bool) :
    (Poller.pollTrainingInfo st force token fetch dOk).1.Inv := by
  unfold Poller.pollTrainingInfo
  cases token with
  | none => exact hInv
  | some tok =>
    cases fetch with
    | none => exact hInv
    | some data =>
      dsimp only
      split
      · exact ⟨Or.inr rfl, hInv.2⟩
      · exact hInv

/-- The activities cycle preserves the consistency invariant. -/
theorem inv_pollActivities (st : PollerState) (hInv : st.Inv) (force : Bool)
    (token : Option String) (fetch : Option JObj)
    (details : String → Option JObj) (dOk : Bool) :
    (Poller.pollActivities st force token fetch details dOk).1.Inv := by
  unfold Poller.pollActivities
  cases token with
  | none => exact hInv
  | some tok =>
    cases fetch with
    | none => exact hInv
    | some data0 =>
      dsimp only
      split
      · exact ⟨hInv.1, Or.inr rfl⟩
      · exact hInv

/-- C10: the fresh state satisfies the invariant, and every poll cycle —
hence also the forced startup run — preserves it: the stored fingerprint
and stored payload are only ever written together, the fingerprint being
exactly `_compute_hash` of the payload written beside it. -/
theorem c10_ok (st : PollerState) (hInv : st.Inv) (force : Bool)
    (token : Option String) (fetchT fetchA : Option JObj)
    (details : String → Option JObj) (d1 d2 : Bool) :
    PollerState.Inv {} ∧
    (Poller.pollTrainingInfo st force token fetchT d1).1.Inv ∧
    (Poller.pollActivities st force token fetchA details d1).1.Inv ∧
    (Poller.start st token fetchT fetchA details d1 d2).1.Inv := by
  refine ⟨⟨Or.inl ⟨rfl, rfl⟩, Or.inl ⟨rfl, rfl⟩⟩,
    inv_pollTrainingInfo st hInv force token fetchT d1,
    inv_pollActivities st hInv force token fetchA details d1, ?_⟩
  unfold Poller.start
  cases token with
  | none => exact hInv
  | some tok =>
    exact inv_pollActivities _
      (inv_pollTrainingInfo st hInv true (some tok) fetchT d1)
      true (some tok) fetchA details d2

/-- Witness for C10 at the fresh state and a concrete forced cycle. -/
theorem c10_ok_witness :
    PollerState.Inv {} ∧
    (Poller.pollTrainingInfo {} true (some "t") (some [("a", .jnull)]) true).1.Inv :=
  ⟨⟨Or.inl ⟨rfl, rfl⟩, Or.inl ⟨rfl, rfl⟩⟩,
    (c10_ok {} ⟨Or.inl ⟨rfl, rfl⟩, Or.inl ⟨rfl, rfl⟩⟩ true (some "t")
      (some [("a", .jnull)]) none (fun _ => none) true true).2.1⟩

/-! ## Claim C8 — payload replacement in the activities cycle -/

/-- C8 counterexample: when the fetched activities list is empty the
payload is *not* replaced — the raw fetch result (here carrying a third
key `"extra"`) is fingerprinted and delivered as-is, refuting "including
the case where the fetched activities list is empty". -/
theorem c8_counterexample :
    (Poller.pollActivities {} true (some "t")
        (some [("success", .jbool true), ("activities", .jarr []), ("extra", .jnum 1)])
        (fun _ => none) true).2
      = some (WebhookClient.send_activities
          [("success", .jbool true), ("activities", .jarr []), ("extra", .jnum 1)]) ∧
    ([("success", .jbool true), ("activities", .jarr []),
      ("extra", .jnum 1)] : JObj).map Prod.fst
      ≠ ["success", "activities"] := by
  exact ⟨rfl, by decide⟩

/-- C8 (amended): only when the fetched activities list is non-empty is
the working payload replaced by the record with exactly the keys
`success` (the fetch's success flag, default `true`) and `activities`
(the enriched list); that record is what gets fingerprinted and
delivered.  When the list is empty or missing, the raw fetch payload is
used unchanged. -/
theorem c8_amended (st : PollerState) (tok : String) (data0 : JObj)
    (details : String → Option JObj) (dOk : Bool)
    (h : (Poller.getActivities data0).isEmpty = false) :
    (Poller.activitiesPayload details data0
      = [("success", dGetD data0 "success" (.jbool true)),
         ("activities",
          .jarr ((Poller.sortedActivities (Poller.getActivities data0)).map
            (Poller.enrichOne details)))]) ∧
    ((Poller.activitiesPayload details data0).map Prod.fst
      = ["success", "activities"]) ∧
    ((Poller.pollActivities st true (some tok) (some data0) details dOk).2
      = some (WebhookClient.send_activities (Poller.activitiesPayload details data0))) ∧
    ((Poller.pollActivities st true (some tok) (some data0) details dOk).1.activities_hash
      = _compute_hash (.jobj (Poller.activitiesPayload details data0))) := by
  refine ⟨?_, ?_, rfl, rfl⟩
  · simp [Poller.activitiesPayload, h]
  · simp [Poller.activitiesPayload, h]

/-- Witness for C8 (amended) on a one-element activities list. -/
theorem c8_amended_witness :
    (Poller.getActivities [("activities", .jarr [.jnull])]).isEmpty = false ∧
    (Poller.activitiesPayload (fun _ => none)
        [("activities", .jarr [.jnull])]).map Prod.fst
      = ["success", "activities"] :=
  ⟨rfl, (c8_amended {} "t" [("activities", .jarr [.jnull])]
    (fun _ => none) true rfl).2.1⟩

/-! ## Claim C7 — enrichment merge -/

/-- Lookup in a key-absent dict fails. -/
theorem dGet_eq_none_of_not_mem (d : JObj) (k : String)
    (h : k ∉ d.map Prod.fst) : dGet d k = none := by
  induction d with
  | nil => rfl
  | cons p ps ih =>
    simp only [List.map_cons, List.mem_cons, not_or] at h
    have hne : ¬p.1 = k := fun hk => h.1 hk.symm
    simp only [dGet, if_neg hne]
    exact ih h.2

/-- Lookup after appending tries the left dict first. -/
theorem dGet_append (d e : JObj) (k : String) :
    dGet (d ++ e) k = (dGet d k).or (dGet e k) := by
  induction d with
  | nil => simp [dGet]
  | cons p ps ih =>
    by_cases h : p.1 = k <;> simp [dGet, h, ih]

/-- In-place replacement of an existing key makes its lookup the new
value. -/
theorem dGet_map_replace_hit (d : JObj) (k : String) (v : JValue)
    (hc : ∃ q ∈ d, q.1 = k) :
    dGet (d.map (fun p => if p.1 = k then (k, v) else p)) k = some v := by
  induction d with
  | nil => simp at hc
  | cons p ps ih =>
    by_cases hp : p.1 = k
    · simp [dGet, hp]
    · have hc' : ∃ q ∈ ps, q.1 = k := by
        rcases hc with ⟨q, hq, hqk⟩
        cases hq with
        | head => exact absurd hqk hp
        | tail _ h => exact ⟨q, h, hqk⟩
      simp [dGet, hp, ih hc']

/-- In-place replacement of one key leaves other lookups untouched. -/
theorem dGet_map_replace_miss (d : JObj) (k k' : String) (v : JValue)
    (h : k' ≠ k) :
    dGet (d.map (fun p => if p.1 = k then (k, v) else p)) k' = dGet d k' := by
  induction d with
  | nil => rfl
  | cons p ps ih =>
    by_cases hp : p.1 = k
    · have hkk : ¬k = k' := fun hh => h hh.symm
      simp [dGet, hp, hkk, ih]
    · simp [dGet, hp, ih]

/-- Lookup after `dict.__setitem__`: the written key maps to the new
value, every other key is untouched. -/
theorem dGet_dictInsert (d : JObj) (k k' : String) (v : JValue) :
    dGet (dictInsert d k v) k' = if k' = k then some v else dGet d k' := by
  unfold dictInsert
  by_cases hc : (d.any fun p => decide (p.1 = k)) = true
  · rw [if_pos hc]
    by_cases h2 : k' = k
    · subst h2
      rw [if_pos rfl]
      refine dGet_map_replace_hit d k' v ?_
      rcases List.any_eq_true.mp hc with ⟨q, hq, hqk⟩
      exact ⟨q, hq, of_decide_eq_true hqk⟩
    · rw [if_neg h2]
      exact dGet_map_replace_miss d k k' v h2
  · rw [if_neg hc, dGet_append]
    have hnm : k ∉ d.map Prod.fst := by
      intro hm
      rcases List.mem_map.mp hm with ⟨q, hq, hqk⟩
      exact hc (List.any_eq_true.mpr ⟨q, hq, decide_eq_true hqk⟩)
    by_cases h2 : k' = k
    · subst h2
      rw [dGet_eq_none_of_not_mem d k' hnm]
      simp [dGet]
    · have h2' : ¬k = k' := fun hh => h2 hh.symm
      rw [if_neg h2]
      cases hd : dGet d k'
      · simp [dGet, Option.or, h2']
      · simp [Option.or]

/-- `{**a, **b}` looks up in `b` first, then `a` (shallow merge, detail
wins), provided `b` has unique keys (Python dicts always do). -/
theorem dGet_dictMerge (a b : JObj) (hb : (b.map Prod.fst).Nodup) (k : String) :
    dGet (dictMerge a b) k = (dGet b k).or (dGet a k) := by
  induction b generalizing a with
  | nil => simp [dictMerge, dGet, Option.or]
  | cons q qs ih =>
    simp only [List.map_cons, List.nodup_cons] at hb
    have hstep : dictMerge a (q :: qs) = dictMerge (dictInsert a q.1 q.2) qs := rfl
    rw [hstep, ih _ hb.2]
    by_cases hk : q.1 = k
    · have hqs : dGet qs k = none :=
        dGet_eq_none_of_not_mem qs k (hk ▸ hb.1)
      simp [dGet, hk, hqs, dGet_dictInsert, Option.or]
    · simp only [dGet, if_neg hk, dGet_dictInsert,
        if_neg (fun h : k = q.1 => hk h.symm)]

/-- C7 counterexample: an entry with a path whose detail fetch returns
`{b: 3, c: 4}` — i.e. the fetch *succeeds* — is nevertheless kept
unmerged, because the code additionally requires a truthy `success` field
in the detail body; the claimed merged key `c` is absent. -/
theorem c7_counterexample :
    Poller.enrichOne
        (fun s => if s = "p" then some [("b", .jnum 3), ("c", .jnum 4)] else none)
        (.jobj [("a", .jnum 1), ("b", .jnum 2), ("path", .jstr "p")])
      = .jobj [("a", .jnum 1), ("b", .jnum 2), ("path", .jstr "p")] ∧
    dGet [("a", .jnum 1), ("b", .jnum 2), ("path", .jstr "p")] "c" = none ∧
    dGet [("b", .jnum 3), ("c", .jnum 4)] "c" = some (.jnum 4) :=
  ⟨rfl, rfl, rfl⟩

/-- C7 (amended): an entry is merged with its detail only when it has a
truthy path, the detail fetch returns a payload, and that payload is a
non-empty dict whose `success` field is truthy; then the result is the
shallow merge where detail fields win on key collision (so for unique
detail keys, lookups hit the detail first, falling back to the entry).
In every other case — no path, failed detail fetch, or non-truthy
detail/`success` — the entry is kept unmerged, and the cycle never
fails. -/
theorem c7_amended (details : String → Option JObj) (a : JValue) (p : String) :
    (Poller.pathOf a = none → Poller.enrichOne details a = a) ∧
    (Poller.pathOf a = some p → details p = none →
      Poller.enrichOne details a = a) ∧
    (∀ d, Poller.pathOf a = some p → details p = some d →
      (truthy (.jobj d) && truthyO (dGet d "success")) = false →
      Poller.enrichOne details a = a) ∧
    (∀ ao d, a = .jobj ao → Poller.pathOf a = some p → details p = some d →
      (truthy (.jobj d) && truthyO (dGet d "success")) = true →
      Poller.enrichOne details a = .jobj (dictMerge ao d) ∧
      ((d.map Prod.fst).Nodup →
        ∀ k, dGet (dictMerge ao d) k = (dGet d k).or (dGet ao k))) := by
  refine ⟨?_, ?_, ?_, ?_⟩
  · intro hp
    cases a <;> simp_all [Poller.enrichOne]
  · intro hp hd
    cases a <;> simp_all [Poller.enrichOne]
  · intro d hp hd hcond
    cases a <;> simp_all [Poller.enrichOne]
  · rintro ao d rfl hp hd hcond
    refine ⟨by simp_all [Poller.enrichOne], fun hnd k => dGet_dictMerge ao d hnd k⟩

/-- Witness for C7 (amended): entry `{a:1, b:2, path:"p"}` with detail
`{success: true, b:3, c:4}` merges with the detail winning on `b`. -/
theorem c7_amended_witness :
    Poller.pathOf (.jobj [("a", .jnum 1), ("b", .jnum 2), ("path", .jstr "p")])
      = some "p" ∧
    Poller.enrichOne
        (fun s => if s = "p" then
          some [("success", .jbool true), ("b", .jnum 3), ("c", .jnum 4)] else none)
        (.jobj [("a", .jnum 1), ("b", .jnum 2), ("path", .jstr "p")])
      = .jobj (dictMerge [("a", .jnum 1), ("b", .jnum 2), ("path", .jstr "p")]
          [("success", .jbool true), ("b", .jnum 3), ("c", .jnum 4)]) ∧
    dGet (dictMerge [("a", .jnum 1), ("b", .jnum 2), ("path", .jstr "p")]
        [("success", .jbool true), ("b", .jnum 3), ("c", .jnum 4)]) "b"
      = some (.jnum 3) := by
  have h := (c7_amended
    (fun s => if s = "p" then
      some [("success", .jbool true), ("b", .jnum 3), ("c", .jnum 4)] else none)
    (.jobj [("a", .jnum 1), ("b", .jnum 2), ("path", .jstr "p")]) "p").2.2.2
    [("a", .jnum 1), ("b", .jnum 2), ("path", .jstr "p")]
    [("success", .jbool true), ("b", .jnum 3), ("c", .jnum 4)]
    rfl rfl rfl (by decide)
  exact ⟨rfl, h.1, (h.2 (by decide) "b").trans rfl⟩

/-! ## Claim C6 — enrichment candidate selection -/

/-- The descending-date comparator is transitive. -/
theorem actCmp_trans (a b c : JValue)
    (h1 : decide (Poller.sortDate b ≤ Poller.sortDate a) = true)
    (h2 : decide (Poller.sortDate c ≤ Poller.sortDate b) = true) :
    decide (Poller.sortDate c ≤ Poller.sortDate a) = true :=
  decide_eq_true (le_trans (of_decide_eq_true h2) (of_decide_eq_true h1))

/-- The descending-date comparator is total. -/
theorem actCmp_total (a b : JValue) :
    (decide (Poller.sortDate b ≤ Poller.sortDate a)
      || decide (Poller.sortDate a ≤ Poller.sortDate b)) = true := by
  rcases le_total (Poller.sortDate b) (Poller.sortDate a) with h | h <;> simp [h]

/-- C6: the enrichment candidate list contains exactly entries of the
fetch having a truthy nested start date, is sorted by that date
descending, is capped at 50, excludes date-less entries, and — when the
dated entries have pairwise-distinct dates — every unselected dated entry
has a strictly smaller date than every selected one (the 50 latest are
selected). -/
theorem c6_ok (acts : List JValue) :
    (∀ e ∈ Poller.sortedActivities acts,
      Poller.hasSortDate e = true ∧ e ∈ acts) ∧
    (Poller.sortedActivities acts).Pairwise
      (fun x y => Poller.sortDate y ≤ Poller.sortDate x) ∧
    (Poller.sortedActivities acts).length
      = min 50 (acts.filter Poller.hasSortDate).length ∧
    (∀ e ∈ acts, Poller.hasSortDate e = false →
      e ∉ Poller.sortedActivities acts) ∧
    ((acts.filter Poller.hasSortDate).Pairwise
        (fun x y => Poller.sortDate x ≠ Poller.sortDate y) →
      ∀ x ∈ Poller.sortedActivities acts, ∀ y ∈ acts.filter Poller.hasSortDate,
        y ∉ Poller.sortedActivities acts →
          Poller.sortDate y < Poller.sortDate x) := by
  have hmem : ∀ e ∈ Poller.sortedActivities acts,
      Poller.hasSortDate e = true ∧ e ∈ acts := by
    intro e he
    have h1 : e ∈ (acts.filter Poller.hasSortDate).mergeSort
        (fun x y => decide (Poller.sortDate y ≤ Poller.sortDate x)) :=
      (List.take_sublist 50 _).subset he
    have h2 := List.mem_filter.mp (List.mem_mergeSort.mp h1)
    exact ⟨h2.2, h2.1⟩
  have hsorted := List.sorted_mergeSort actCmp_trans actCmp_total
    (acts.filter Poller.hasSortDate)
  refine ⟨hmem, ?_, ?_, ?_, ?_⟩
  · exact (List.Pairwise.sublist (List.take_sublist 50 _) hsorted).imp
      (fun h => of_decide_eq_true h)
  · simp [Poller.sortedActivities]
  · intro e _ hno hmem'
    exact absurd (hmem e hmem').1 (by simp [hno])
  · intro hdist x hx y hy hyn
    have hperm := List.mergeSort_perm (acts.filter Poller.hasSortDate)
      (fun x y => decide (Poller.sortDate y ≤ Poller.sortDate x))
    have hne := (hperm.pairwise_iff
      (by intro a b h; exact h.symm)).mpr hdist
    have hstrict := (hsorted.and hne).imp
      (fun h => lt_of_le_of_ne (of_decide_eq_true h.1) (Ne.symm h.2))
    have hyS : y ∈ (acts.filter Poller.hasSortDate).mergeSort
        (fun x y => decide (Poller.sortDate y ≤ Poller.sortDate x)) :=
      List.mem_mergeSort.mpr hy
    rw [← List.take_append_drop 50 ((acts.filter Poller.hasSortDate).mergeSort
      (fun x y => decide (Poller.sortDate y ≤ Poller.sortDate x)))] at hstrict hyS
    have hyd : y ∈ ((acts.filter Poller.hasSortDate).mergeSort
        (fun x y => decide (Poller.sortDate y ≤ Poller.sortDate x))).drop 50 := by
      rcases List.mem_append.mp hyS with h | h
      · exact absurd h hyn
      · exact h
    exact (List.pairwise_append.mp hstrict).2.2 x hx y hyd

/-- Witness for C6: a date-less entry present in the fetch is excluded
from the candidate list. -/
theorem c6_ok_witness :
    (JValue.jobj [("x", .jnum 1)]) ∈
        ([.jobj [("x", .jnum 1)],
          .jobj [("start_date", .jobj [("date", .jstr "2024-01-01")])]] : List JValue) ∧
    Poller.hasSortDate (.jobj [("x", .jnum 1)]) = false ∧
    (JValue.jobj [("x", .jnum 1)]) ∉ Poller.sortedActivities
        [.jobj [("x", .jnum 1)],
         .jobj [("start_date", .jobj [("date", .jstr "2024-01-01")])]] :=
  ⟨by simp, rfl, (c6_ok _).2.2.2.1 _ (by simp) rfl⟩

/-! ## Claim C5 — fingerprint stability

"Structurally equal up to map key insertion order" is the mutual
inductive relation `JEquiv`: identical atoms, pointwise-equivalent
arrays, and objects whose entry lists are permutations carrying the same
keys to recursively equivalent values.  Python dicts cannot hold
duplicate keys, which `NodupKeys` captures. -/

mutual

inductive JEquiv : JValue → JValue → Prop where
  | null : JEquiv .jnull .jnull
  | bool (b : Bool) : JEquiv (.jbool b) (.jbool b)
  | num (n : Int) : JEquiv (.jnum n) (.jnum n)
  | str (s : String) : JEquiv (.jstr s) (.jstr s)
  | arr {xs ys : List JValue} : JEquivList xs ys → JEquiv (.jarr xs) (.jarr ys)
  | obj {xs zs ys : List (String × JValue)} :
      JEquivEntries xs zs → zs.Perm ys → JEquiv (.jobj xs) (.jobj ys)

inductive JEquivList : List JValue → List JValue → Prop where
  | nil : JEquivList [] []
  | cons {x y : JValue} {xs ys : List JValue} :
      JEquiv x y → JEquivList xs ys → JEquivList (x :: xs) (y :: ys)

inductive JEquivEntries : List (String × JValue) → List (String × JValue) → Prop where
  | nil : JEquivEntries [] []
  | cons {k : String} {v w : JValue} {xs ys : List (String × JValue)} :
      JEquiv v w → JEquivEntries xs ys →
      JEquivEntries ((k, v) :: xs) ((k, w) :: ys)

end

mutual

/-- Every object node has pairwise-distinct keys (always true of payloads
deserialized from Python dicts). -/
def NodupKeys : JValue → Prop
  | .jarr xs => NodupKeysList xs
  | .jobj xs => (xs.map Prod.fst).Nodup ∧ NodupKeysEntries xs
  | _ => True

def NodupKeysList : List JValue → Prop
  | [] => True
  | x :: xs => NodupKeys x ∧ NodupKeysList xs

def NodupKeysEntries : List (String × JValue) → Prop
  | [] => True
  | p :: xs => NodupKeys p.2 ∧ NodupKeysEntries xs

end

/-- `dumpsEntries` is a map over the entries. -/
theorem dumpsEntries_eq_map (l : JObj) :
    dumpsEntries l = l.map (fun p => (p.1, dumps p.2)) := by
  induction l with
  | nil => rfl
  | cons p ps ih =>
    cases p
    simp only [dumpsEntries, List.map_cons]
    rw [ih]

/-- The key comparator used by `sortPairs` is transitive. -/
theorem pairCmp_trans (a b c : String × String)
    (h1 : decide (a.1 ≤ b.1) = true) (h2 : decide (b.1 ≤ c.1) = true) :
    decide (a.1 ≤ c.1) = true :=
  decide_eq_true (le_trans (of_decide_eq_true h1) (of_decide_eq_true h2))

/-- The key comparator used by `sortPairs` is total. -/
theorem pairCmp_total (a b : String × String) :
    (decide (a.1 ≤ b.1) || decide (b.1 ≤ a.1)) = true := by
  rcases le_total a.1 b.1 with h | h <;> simp [h]

/-- Sorting by key is a canonical form: two permuted entry lists with
(shared) duplicate-free keys sort identically. -/
theorem sortPairs_eq_of_perm (l₁ l₂ : List (String × String))
    (hp : l₁.Perm l₂) (hnd : (l₁.map Prod.fst).Nodup) :
    sortPairs l₁ = sortPairs l₂ := by
  have hs₁ := List.sorted_mergeSort pairCmp_trans pairCmp_total l₁
  have hs₂ := List.sorted_mergeSort pairCmp_trans pairCmp_total l₂
  have hp' : (sortPairs l₁).Perm (sortPairs l₂) :=
    (List.mergeSort_perm l₁ _).trans (hp.trans (List.mergeSort_perm l₂ _).symm)
  have hnd₁ : ((sortPairs l₁).map Prod.fst).Nodup :=
    (((List.mergeSort_perm l₁ _).map Prod.fst).nodup_iff).mpr hnd
  have hnd₂ : ((sortPairs l₂).map Prod.fst).Nodup :=
    ((hp'.map Prod.fst).nodup_iff).mp hnd₁
  have hne₁ : (sortPairs l₁).Pairwise (fun p q => p.1 ≠ q.1) :=
    List.pairwise_map.mp hnd₁
  have hne₂ : (sortPairs l₂).Pairwise (fun p q => p.1 ≠ q.1) :=
    List.pairwise_map.mp hnd₂
  have hst₁ : (sortPairs l₁).Pairwise (fun p q : String × String => p.1 < q.1) :=
    (hs₁.and hne₁).imp (fun h => lt_of_le_of_ne (of_decide_eq_true h.1) h.2)
  have hst₂ : (sortPairs l₂).Pairwise (fun p q : String × String => p.1 < q.1) :=
    (hs₂.and hne₂).imp (fun h => lt_of_le_of_ne (of_decide_eq_true h.1) h.2)
  haveI : IsAntisymm (String × String) (fun p q => p.1 < q.1) :=
    ⟨fun _ _ h1 h2 => absurd (lt_trans h1 h2) (lt_irrefl _)⟩
  exact List.eq_of_perm_of_sorted hp' hst₁ hst₂

/-- `NodupKeysEntries` is a pointwise condition on the values. -/
theorem nodupKeysEntries_iff (l : JObj) :
    NodupKeysEntries l ↔ ∀ p ∈ l, NodupKeys p.2 := by
  induction l with
  | nil => simp [NodupKeysEntries]
  | cons p ps ih => simp [NodupKeysEntries, ih]

/-- Equality of rendered elements transfers to the joined array body. -/
theorem dumpsList_congr_of_map (us vs : List JValue)
    (h : us.map dumps = vs.map dumps) : dumpsList us = dumpsList vs := by
  induction us generalizing vs with
  | nil =>
    cases vs with
    | nil => rfl
    | cons v vs' => simp at h
  | cons u us' ihu =>
    cases vs with
    | nil => simp at h
    | cons v vs' =>
      simp only [List.map_cons, List.cons.injEq] at h
      cases us' with
      | nil =>
        cases vs' with
        | nil =>
          simp only [dumpsList]
          exact h.1
        | cons w2 ws2 => exact absurd h.2 (by simp)
      | cons w ws =>
        cases vs' with
        | nil => exact absurd h.2 (by simp)
        | cons w2 ws2 =>
          simp only [dumpsList]
          rw [h.1, ihu _ h.2]

/-- `dumps` respects `JEquiv` on duplicate-key-free payloads: the
serialization fed to the hash is insensitive to object key order
(strong induction on the payload size). -/
theorem dumps_congr : ∀ (n : Nat) (a b : JValue), sizeOf a < n →
    JEquiv a b → NodupKeys a → NodupKeys b → dumps a = dumps b := by
  intro n
  induction n with
  | zero => intro a b h _ _ _; exact absurd h (Nat.not_lt_zero _)
  | succ m ih =>
    intro a b hsz hab ha hb
    cases hab with
    | null => rfl
    | bool b => rfl
    | num n => rfl
    | str s => rfl
    | arr hlist =>
      rename_i xs ys
      simp only [dumps]
      simp only [NodupKeys] at ha hb
      have hxs : sizeOf xs < m := by
        have hspec : sizeOf (JValue.jarr xs) = 1 + sizeOf xs := by simp
        omega
      have hmap : ∀ (us vs : List JValue), sizeOf us ≤ sizeOf xs →
          JEquivList us vs → NodupKeysList us → NodupKeysList vs →
          us.map dumps = vs.map dumps := by
        intro us
        induction us with
        | nil =>
          intro vs _ hl _ _
          cases hl
          rfl
        | cons u us' ihu =>
          intro vs hle hl hu hv
          cases hl with
          | cons huv htail =>
            rename_i y ys'
            simp only [NodupKeysList] at hu hv
            simp only [List.map_cons]
            have hcs : sizeOf (u :: us') = 1 + sizeOf u + sizeOf us' := by simp
            have h1 : dumps u = dumps y := ih u y (by omega) huv hu.1 hv.1
            have h2 : us'.map dumps = ys'.map dumps :=
              ihu ys' (by omega) htail hu.2 hv.2
            rw [h1, h2]
      rw [dumpsList_congr_of_map xs ys (hmap xs ys le_rfl hlist ha hb)]
    | obj hEnt hPerm =>
      rename_i xs zs ys
      simp only [dumps]
      simp only [NodupKeys] at ha hb
      have hxs : sizeOf xs < m := by
        have hspec : sizeOf (JValue.jobj xs) = 1 + sizeOf xs := by simp
        omega
      have hvxs : ∀ p ∈ xs, NodupKeys p.2 := (nodupKeysEntries_iff xs).mp ha.2
      have hvys : ∀ p ∈ ys, NodupKeys p.2 := (nodupKeysEntries_iff ys).mp hb.2
      have hvzs : ∀ p ∈ zs, NodupKeys p.2 := fun p hp => hvys p (hPerm.subset hp)
      have key : ∀ (us vs : JObj), sizeOf us ≤ sizeOf xs →
          JEquivEntries us vs → (∀ p ∈ us, NodupKeys p.2) →
          (∀ p ∈ vs, NodupKeys p.2) → dumpsEntries us = dumpsEntries vs := by
        intro us
        induction us with
        | nil =>
          intro vs _ hl _ _
          cases hl
          rfl
        | cons p ps ihp =>
          intro vs hle hl hu hv
          cases hl with
          | cons hvw htail =>
            rename_i k v w ys'
            simp only [dumpsEntries]
            have hcs : sizeOf ((k, v) :: ps)
                = 1 + (1 + sizeOf k + sizeOf v) + sizeOf ps := by simp
            have h1 : dumps v = dumps w :=
              ih v w (by omega) hvw (hu _ (List.mem_cons_self _ _))
                (hv _ (List.mem_cons_self _ _))
            have h2 : dumpsEntries ps = dumpsEntries ys' :=
              ihp ys' (by omega) htail
                (fun q hq => hu q (List.mem_cons_of_mem _ hq))
                (fun q hq => hv q (List.mem_cons_of_mem _ hq))
            rw [h1, h2]
      have hEq : dumpsEntries xs = dumpsEntries zs := key xs zs le_rfl hEnt hvxs hvzs
      have hBperm : (dumpsEntries zs).Perm (dumpsEntries ys) := by
        rw [dumpsEntries_eq_map, dumpsEntries_eq_map]
        exact hPerm.map _
      have hnd : ((dumpsEntries xs).map Prod.fst).Nodup := by
        rw [dumpsEntries_eq_map]
        have hcomp : (xs.map (fun p => (p.1, dumps p.2))).map Prod.fst
            = xs.map Prod.fst := by
          rw [List.map_map]
          rfl
        rw [hcomp]
        exact ha.1
      have hsp : sortPairs (dumpsEntries xs) = sortPairs (dumpsEntries ys) := by
        rw [hEq]
        exact sortPairs_eq_of_perm _ _ hBperm (hEq ▸ hnd)
      rw [hsp]

/-- C5: `_compute_hash` is a pure function of its payload — structurally
equal payloads differing only in object key insertion order (with the
duplicate-free keys Python dicts guarantee) have identical fingerprints,
evaluating it twice on one payload gives the same result, and the result
always has the fixed length 16. -/
theorem c5_ok (a b : JValue) (ha : NodupKeys a) (hb : NodupKeys b)
    (hab : JEquiv a b) :
    _compute_hash a = _compute_hash b ∧
    _compute_hash a = _compute_hash a ∧
    (_compute_hash a).length = 16 := by
  refine ⟨?_, rfl, compute_hash_length a⟩
  have hd : dumps a = dumps b :=
    dumps_congr (sizeOf a + 1) a b (Nat.lt_succ_self _) hab ha hb
  unfold _compute_hash
  rw [hd]

/-- Witness for C5: a two-level payload and its key-reordered variant
(reordered both at the top level and inside the nested object) have equal
fingerprints. -/
theorem c5_ok_witness :
    NodupKeys (.jobj [("x", .jnum 1),
      ("y", .jobj [("u", .jnum 2), ("v", .jnum 3)])]) ∧
    NodupKeys (.jobj [("y", .jobj [("v", .jnum 3), ("u", .jnum 2)]),
      ("x", .jnum 1)]) ∧
    _compute_hash (.jobj [("x", .jnum 1),
        ("y", .jobj [("u", .jnum 2), ("v", .jnum 3)])])
      = _compute_hash (.jobj [("y", .jobj [("v", .jnum 3), ("u", .jnum 2)]),
        ("x", .jnum 1)]) := by
  have ha : NodupKeys (.jobj [("x", .jnum 1),
      ("y", .jobj [("u", .jnum 2), ("v", .jnum 3)])]) := by
    simp [NodupKeys, NodupKeysEntries]
  have hb : NodupKeys (.jobj [("y", .jobj [("v", .jnum 3), ("u", .jnum 2)]),
      ("x", .jnum 1)]) := by
    simp [NodupKeys, NodupKeysEntries]
  have hinner : JEquiv (.jobj [("u", .jnum 2), ("v", .jnum 3)])
      (.jobj [("v", .jnum 3), ("u", .jnum 2)]) :=
    JEquiv.obj
      (JEquivEntries.cons (JEquiv.num 2)
        (JEquivEntries.cons (JEquiv.num 3) JEquivEntries.nil))
      (List.Perm.swap ("v", JValue.jnum 3) ("u", JValue.jnum 2) [])
  have hab : JEquiv (.jobj [("x", .jnum 1),
      ("y", .jobj [("u", .jnum 2), ("v", .jnum 3)])])
      (.jobj [("y", .jobj [("v", .jnum 3), ("u", .jnum 2)]), ("x", .jnum 1)]) :=
    JEquiv.obj
      (JEquivEntries.cons (JEquiv.num 1)
        (JEquivEntries.cons hinner JEquivEntries.nil))
      (List.Perm.swap ("y", JValue.jobj [("v", JValue.jnum 3), ("u", JValue.jnum 2)])
        ("x", JValue.jnum 1) [])
  exact ⟨ha, hb, (c5_ok _ _ ha hb hab).1⟩
